import Mathlib

/-!
Shallow embedding of `src/services/storage.ts` of the
`gerenciamentoSom` equipment-inventory tracker.

The browser `localStorage` is modelled as a `Store` record with one
optional field per storage key (`none` models an absent key).  Each
facade operation of `storageService` becomes a pure function from the
store (plus the values the TypeScript code obtains from the ambient
environment: `Date.now()`-style fresh notification ids and current
timestamps) to its result and the updated store.

Timestamps: notification creation instants are compared numerically in
the source via `new Date(n.date).getTime()`, so the `date` field of a
notification is modelled as `Nat` (epoch milliseconds); all other date
fields are never compared and stay `String` as in the source.
-/

namespace GerenciamentoSom

/-- Model of `EquipmentStatus` from `types.ts`: `'available' | 'in_use' | 'maintenance'`. -/
inductive EquipmentStatus
  | available
  | in_use
  | maintenance
deriving DecidableEq, Repr

/-- Model of `UserRole` from `types.ts`: `'admin' | 'user'`. -/
inductive UserRole
  | admin
  | user
deriving DecidableEq, Repr

/-- Notification type: `'alert' | 'success'`. -/
inductive NotificationType
  | alert
  | success
deriving DecidableEq, Repr

/-- Model of `MaintenanceLog` from `types.ts`: id, date, description, reporter
name and id, optional resolution timestamp. -/
structure MaintenanceLog where
  id : String
  date : String
  description : String
  reportedBy : String
  reportedById : String
  resolvedAt : Option String := none
deriving DecidableEq, Repr

/-- Model of `Equipment` from `types.ts`. -/
structure Equipment where
  id : String
  name : String
  brand : String
  category : String
  status : EquipmentStatus
  purchaseDate : String
  logs : List MaintenanceLog
deriving DecidableEq, Repr

/-- Model of `AppNotification` from `types.ts`; `date` is the creation instant
as epoch milliseconds (see module comment). -/
structure AppNotification where
  id : String
  date : Nat
  read : Bool
  message : String
  type : NotificationType
  recipientRole : Option UserRole := none
  recipientUserId : Option String := none
  relatedEquipmentId : Option String := none
deriving DecidableEq, Repr

/-- The browser `localStorage`, restricted to the two keys the service
uses: `sound_equip_db_v1` and `sound_equip_notifications_v1`.  `none`
models an absent key. -/
structure Store where
  equipment : Option (List Equipment)
  notifications : Option (List AppNotification)
deriving DecidableEq, Repr

/-- The four seed records `INITIAL_DATA` of `storage.ts`. -/
def INITIAL_DATA : List Equipment :=
  [ { id := "1", name := "Shure SM58", brand := "Shure",
      category := "Microfones", status := .available,
      purchaseDate := "2023-01-15", logs := [] },
    { id := "2", name := "Behringer X32", brand := "Behringer",
      category := "Mesas de Som", status := .in_use,
      purchaseDate := "2022-05-20", logs := [] },
    { id := "3", name := "Cabo XLR 10m", brand := "Santo Angelo",
      category := "Cabos", status := .maintenance,
      purchaseDate := "2023-08-10",
      logs := [ { id := "log-1", date := "2023-10-25",
                  description := "Conector com mau contato",
                  reportedBy := "Usuário Padrão",
                  reportedById := "user-1" } ] },
    { id := "4", name := "Yamaha DBR10", brand := "Yamaha",
      category := "Caixas de Som", status := .available,
      purchaseDate := "2021-11-05", logs := [] } ]

namespace storageService

/-- Model of `storageService.getAll`: returns the stored equipment list; when
the key is absent, writes `INITIAL_DATA` and returns it. -/
def getAll (s : Store) : List Equipment × Store :=
  match s.equipment with
  | none => (INITIAL_DATA, { s with equipment := some INITIAL_DATA })
  | some items => (items, s)

/-- Model of `storageService.save`: re-reads via `getAll`; replaces every record
whose id matches (the source `find` only decides which branch runs, the
`map` rewrites all matches) or appends when no record matches. -/
def save (equipment : Equipment) (s : Store) : Equipment × Store :=
  let res := getAll s
  let items := res.1
  let newItems :=
    match items.find? (fun i => i.id == equipment.id) with
    | some _ => items.map (fun i => if i.id == equipment.id then equipment else i)
    | none => items ++ [equipment]
  (equipment, { res.2 with equipment := some newItems })

/-- Model of `storageService.delete`: keeps exactly the records whose id differs. -/
def delete (id : String) (s : Store) : Store :=
  let res := getAll s
  { res.2 with equipment := some (res.1.filter (fun i => i.id != id)) }

/-- Model of `storageService.toggleStatus`: finds the record, overwrites its
status, saves; `none` when the id is absent. -/
def toggleStatus (id : String) (newStatus : EquipmentStatus) (s : Store) :
    Option Equipment × Store :=
  let res := getAll s
  match res.1.find? (fun i => i.id == id) with
  | some item =>
      let item1 := { item with status := newStatus }
      (some item1, (save item1 res.2).2)
  | none => (none, res.2)

/-- Model of `storageService.createNotification`: builds the new notification
from the payload plus a fresh id and the current instant, `read=false`,
and prepends it to the stored list (absent key read as `[]`). -/
def createNotification (freshId : String) (now : Nat)
    (recipientRole : Option UserRole) (recipientUserId : Option String)
    (message : String) (ntype : NotificationType)
    (relatedEquipmentId : Option String) (s : Store) : Store :=
  let allNotifications := s.notifications.getD []
  let newNotification : AppNotification :=
    { id := freshId, date := now, read := false, message := message,
      type := ntype, recipientRole := recipientRole,
      recipientUserId := recipientUserId,
      relatedEquipmentId := relatedEquipmentId }
  { s with notifications := some (newNotification :: allNotifications) }

/-- Model of `storageService.addLog` (the "report issue" operation): appends the
log, forces status to `maintenance`, saves, then notifies the admins;
`none` and no write when the id is absent. -/
def addLog (id : String) (log : MaintenanceLog) (freshId : String)
    (now : Nat) (s : Store) : Option Equipment × Store :=
  let res := getAll s
  match res.1.find? (fun i => i.id == id) with
  | some item =>
      let item1 :=
        { item with
          logs := item.logs ++ [log]
          status := .maintenance }
      let s2 := (save item1 res.2).2
      let s3 := createNotification freshId now (some .admin) none
        (log.reportedBy ++ " reportou um problema em: " ++ item.name)
        .alert (some item.id) s2
      (some item1, s3)
  | none => (none, res.2)

/-- Model of `storageService.resolveMaintenance` (the "resolve" operation):
forces status to `available`; when the log list is non-empty it stamps
the last log's `resolvedAt` with the current ISO instant and captures
its `reportedById`; saves; notifies the reporting user when the
captured id is truthy (JavaScript truthiness: defined and non-empty). -/
def resolveMaintenance (id : String) (freshId : String) (nowIso : String)
    (now : Nat) (s : Store) : Option Equipment × Store :=
  let res := getAll s
  match res.1.find? (fun i => i.id == id) with
  | some item =>
      let withStatus := { item with status := EquipmentStatus.available }
      let stamped :=
        match withStatus.logs.getLast? with
        | some lastLog =>
            ({ withStatus with logs := withStatus.logs.dropLast ++
                 [{ lastLog with resolvedAt := some nowIso }] },
             some lastLog.reportedById)
        | none => (withStatus, (none : Option String))
      let s2 := (save stamped.1 res.2).2
      let s3 :=
        match stamped.2 with
        | some rid =>
            if rid ≠ "" then
              createNotification freshId now none (some rid)
                ("O equipamento " ++ item.name ++
                 " foi reparado e está disponível.")
                .success (some item.id) s2
            else s2
        | none => s2
      (some stamped.1, s3)
  | none => (none, res.2)

/-- The visibility filter shared (verbatim in the source) by
`getNotifications` and `markAllRead`:
`(n.recipientRole === role) || (n.recipientUserId === userId)`. -/
def notifMatches (userId : String) (role : UserRole)
    (n : AppNotification) : Bool :=
  n.recipientRole == some role || n.recipientUserId == some userId

/-- Model of `storageService.getNotifications`: filters the stored list (absent
key read as `[]`) by `notifMatches` and sorts by creation instant
descending (`(a, b) => getTime(b.date) - getTime(a.date)`). -/
def getNotifications (userId : String) (role : UserRole) (s : Store) :
    List AppNotification :=
  ((s.notifications.getD []).filter (notifMatches userId role)).mergeSort
    (fun a b => b.date ≤ a.date)

/-- Model of `storageService.markNotificationRead`: sets `read := true` on the
matching notification; returns without writing when the key is absent. -/
def markNotificationRead (notificationId : String) (s : Store) : Store :=
  match s.notifications with
  | none => s
  | some allNotifications =>
      { s with notifications := some (allNotifications.map (fun n =>
          if n.id == notificationId then { n with read := true } else n)) }

/-- Model of `storageService.markAllRead`: sets `read := true` on every
notification passing the same filter as `getNotifications`; returns
without writing when the key is absent. -/
def markAllRead (userId : String) (role : UserRole) (s : Store) : Store :=
  match s.notifications with
  | none => s
  | some allNotifications =>
      { s with notifications := some (allNotifications.map (fun n =>
          if notifMatches userId role n then { n with read := true }
          else n)) }

end storageService

/-! ### Shared definitions for the verification -/

/-- The store before anything was persisted: both keys absent. -/
def emptyStore : Store := { equipment := none, notifications := none }

/-- The store after the first `getAll` on empty storage seeded it. -/
def seededStore : Store := (storageService.getAll emptyStore).2

/-- An equipment record whose only maintenance log carries an empty
reporter id (a falsy string in JavaScript). -/
def itemEmptyReporter : Equipment :=
  { id := "x", name := "X", brand := "B", category := "C",
    status := .maintenance, purchaseDate := "2024-01-01",
    logs := [ { id := "L", date := "2024-02-01", description := "d",
                reportedBy := "r", reportedById := "" } ] }

/-- A maintenance log that is already resolved (timestamp `"T0"`). -/
def resolvedLog : MaintenanceLog :=
  { id := "L", date := "2024-02-01", description := "d",
    reportedBy := "r", reportedById := "user-1",
    resolvedAt := some "T0" }

/-- An equipment record whose only maintenance log is `resolvedLog`. -/
def itemResolvedLog : Equipment :=
  { id := "y", name := "Y", brand := "B", category := "C",
    status := .available, purchaseDate := "2024-01-01",
    logs := [resolvedLog] }

/-- A store persisting exactly `itemResolvedLog` and no notifications. -/
def storeY : Store :=
  { equipment := some [itemResolvedLog], notifications := some [] }

/-- A role-broadcast sample notification (admins, unread). -/
def notifAdminBroadcast : AppNotification :=
  { id := "a", date := 5, read := false, message := "m",
    type := .alert, recipientRole := some .admin }

/-- A user-targeted sample notification (for `"user-2"`, unread). -/
def notifForOtherUser : AppNotification :=
  { id := "b", date := 7, read := false, message := "m2",
    type := .success, recipientUserId := some "user-2" }

/-- A store persisting the two sample notifications and no equipment. -/
def sampleNotifStore : Store :=
  { equipment := none,
    notifications := some [notifAdminBroadcast, notifForOtherUser] }

/-- A store persisting exactly the record `itemEmptyReporter` and an
empty notification list. -/
def storeX : Store :=
  { equipment := some [itemEmptyReporter], notifications := some [] }

/-- A sample unresolved maintenance log, as the report modal creates. -/
def sampleLog : MaintenanceLog :=
  { id := "L2", date := "2024-03-01", description := "quebrou",
    reportedBy := "João", reportedById := "user-1" }

/-- The spec's status/log invariant for one record: if the most recent
log is unresolved the status is `maintenance`; if it is resolved the
status is `available`. -/
def lastLogConsistent (item : Equipment) : Bool :=
  match item.logs.getLast? with
  | none => true
  | some lastLog =>
      match lastLog.resolvedAt with
      | none => item.status == .maintenance
      | some _ => item.status == .available

/-- The spec's status/log invariant for a whole equipment collection. -/
def statusInvariant (es : List Equipment) : Prop :=
  ∀ item ∈ es, lastLogConsistent item = true

instance (es : List Equipment) : Decidable (statusInvariant es) :=
  List.decidableBAll _ es

/-- States reachable from the seeded store by the facade operations
that preserve the status/log invariant: `delete`, `addLog` with an
unresolved log (as the application always passes), and
`resolveMaintenance`. -/
inductive ReachableMaint : Store → Prop
  | seed : ReachableMaint seededStore
  | del (id : String) {s : Store} :
      ReachableMaint s → ReachableMaint (storageService.delete id s)
  | report (id : String) (log : MaintenanceLog) (freshId : String)
      (now : Nat) {s : Store} :
      ReachableMaint s → log.resolvedAt = none →
      ReachableMaint (storageService.addLog id log freshId now s).2
  | resolveOp (id freshId nowIso : String) (now : Nat) {s : Store} :
      ReachableMaint s →
      ReachableMaint (storageService.resolveMaintenance id freshId nowIso now s).2

/-! ### C6: first `getAll` seeds the four fixed records -/

/-- C6: when no equipment data is persisted, `getAll` returns exactly
the four seed records and persists them; a subsequent `getAll` returns
the same four records and leaves the store unchanged, so every later
call (absent intervening mutations) keeps returning them. -/
theorem getAll_seeds_four (s : Store) (h : s.equipment = none) :
    (storageService.getAll s).1 = INITIAL_DATA ∧
    INITIAL_DATA.length = 4 ∧
    (storageService.getAll s).2.equipment = some INITIAL_DATA ∧
    (storageService.getAll (storageService.getAll s).2).1 = INITIAL_DATA ∧
    (storageService.getAll (storageService.getAll s).2).2 =
      (storageService.getAll s).2 := by
  refine ⟨?_, by decide, ?_, ?_, ?_⟩ <;> simp [storageService.getAll, h]

/-- Witness for C6 at the empty store. -/
theorem getAll_seeds_four_witness :
    (storageService.getAll emptyStore).1 = INITIAL_DATA ∧
    INITIAL_DATA.length = 4 ∧
    (storageService.getAll emptyStore).2.equipment = some INITIAL_DATA ∧
    (storageService.getAll (storageService.getAll emptyStore).2).1 =
      INITIAL_DATA ∧
    (storageService.getAll (storageService.getAll emptyStore).2).2 =
      (storageService.getAll emptyStore).2 :=
  getAll_seeds_four emptyStore rfl

/-! ### C8: absent id means no-op -/

/-- C8: on a persisted equipment collection that contains no record
with the given id, `addLog` (report issue) and `resolveMaintenance`
(resolve) both return `none` and leave the whole store — equipment and
notifications — unchanged. -/
theorem absent_id_noop (s : Store) (es : List Equipment) (id : String)
    (log : MaintenanceLog) (freshId nowIso : String) (now : Nat)
    (hs : s.equipment = some es) (habs : ∀ j ∈ es, j.id ≠ id) :
    storageService.addLog id log freshId now s = (none, s) ∧
    storageService.resolveMaintenance id freshId nowIso now s = (none, s) := by
  have hf : es.find? (fun i => i.id == id) = none := by
    rw [List.find?_eq_none]
    intro j hj
    simpa using habs j hj
  refine ⟨?_, ?_⟩ <;>
    simp [storageService.addLog, storageService.resolveMaintenance,
      storageService.getAll, hs, hf]

/-- Witness for C8: the seeded store has no record with id `"99"`. -/
theorem absent_id_noop_witness :
    storageService.addLog "99"
        { id := "L", date := "D", description := "d", reportedBy := "r",
          reportedById := "u" } "n1" 5 seededStore = (none, seededStore) ∧
    storageService.resolveMaintenance "99" "n1" "T1" 5 seededStore =
      (none, seededStore) :=
  absent_id_noop seededStore INITIAL_DATA "99"
    { id := "L", date := "D", description := "d", reportedBy := "r",
      reportedById := "u" } "n1" "T1" 5 rfl (by decide)

/-! ### C9: delete -/

/-- Counterexample for C9 as stated: with a persisted collection of one
record (id `"x"`) and the absent id `"missing"`, `delete` removes zero
records — the collection is unchanged and still has length one — not
"exactly one record" as the claim asserts for every id. -/
theorem delete_absent_removes_nothing :
    (storageService.delete "missing"
        { equipment := some [itemEmptyReporter],
          notifications := none }).equipment = some [itemEmptyReporter] ∧
    ((storageService.delete "missing"
        { equipment := some [itemEmptyReporter],
          notifications := none }).equipment.getD []).length = 1 := by
  decide

/-- C9 (amended): on a persisted collection with pairwise-distinct ids,
deleting an id that is present removes exactly the one matching record;
every other record is kept identical, in the same relative order, and
the notifications are untouched. -/
theorem delete_present_removes_exactly_one (s : Store) (es : List Equipment)
    (id : String) (hs : s.equipment = some es)
    (hnd : (es.map Equipment.id).Nodup)
    (hmem : id ∈ es.map Equipment.id) :
    ∃ l₁ target l₂, es = l₁ ++ target :: l₂ ∧ target.id = id ∧
      (storageService.delete id s).equipment = some (l₁ ++ l₂) ∧
      (storageService.delete id s).notifications = s.notifications := by
  obtain ⟨target, htmem, htid⟩ := List.mem_map.mp hmem
  obtain ⟨l₁, l₂, hes⟩ := List.append_of_mem htmem
  subst hes
  rw [List.map_append, List.map_cons, List.nodup_append] at hnd
  obtain ⟨h₁, h₂, hdisj⟩ := hnd
  have hid1 : ∀ x ∈ l₁, x.id ≠ id := by
    intro x hx heq
    exact hdisj (List.mem_map_of_mem Equipment.id hx)
      (by rw [heq, ← htid]; exact List.mem_cons_self _ _)
  have hid2 : ∀ x ∈ l₂, x.id ≠ id := by
    intro x hx heq
    rw [List.nodup_cons] at h₂
    exact h₂.1 (by rw [htid, ← heq]; exact List.mem_map_of_mem Equipment.id hx)
  have e1 : l₁.filter (fun i => i.id != id) = l₁ :=
    List.filter_eq_self.mpr (fun a ha => by simpa using hid1 a ha)
  have e2 : l₂.filter (fun i => i.id != id) = l₂ :=
    List.filter_eq_self.mpr (fun a ha => by simpa using hid2 a ha)
  refine ⟨l₁, target, l₂, rfl, htid, ?_, ?_⟩
  · simp [storageService.delete, storageService.getAll, hs,
      List.filter_append, e1, e2, List.filter_cons, htid]
  · simp [storageService.delete, storageService.getAll, hs]

/-- Witness for C9 (amended): deleting id `"2"` from the seeded data. -/
theorem delete_present_removes_exactly_one_witness :
    ∃ l₁ target l₂, INITIAL_DATA = l₁ ++ target :: l₂ ∧
      target.id = "2" ∧
      (storageService.delete "2" seededStore).equipment = some (l₁ ++ l₂) ∧
      (storageService.delete "2" seededStore).notifications =
        seededStore.notifications :=
  delete_present_removes_exactly_one seededStore INITIAL_DATA "2" rfl
    (by decide) (by decide)

/-! ### C4: getNotifications filters and sorts -/

/-- C4: `getNotifications userId role` returns exactly the stored
notifications whose recipient role equals `role` or whose recipient
user id equals `userId` (membership characterisation, and the result is
a permutation of that filtered sublist, so multiplicities agree), and
the result is sorted by creation date descending (each element's date
is at least the date of every later element). -/
theorem getNotifications_filters_and_sorts (userId : String)
    (role : UserRole) (s : Store) :
    (∀ n, n ∈ storageService.getNotifications userId role s ↔
        (n ∈ s.notifications.getD [] ∧
          (n.recipientRole = some role ∨ n.recipientUserId = some userId))) ∧
    (storageService.getNotifications userId role s).Perm
      ((s.notifications.getD []).filter
        (storageService.notifMatches userId role)) ∧
    List.Pairwise (fun a b : AppNotification => b.date ≤ a.date)
      (storageService.getNotifications userId role s) := by
  refine ⟨?_, List.mergeSort_perm _ _, ?_⟩
  · intro n
    rw [storageService.getNotifications, List.mem_mergeSort, List.mem_filter]
    simp [storageService.notifMatches]
  · have hp := @List.sorted_mergeSort AppNotification
      (fun a b => decide (b.date ≤ a.date))
      (fun a b c hab hbc => by
        simp only [decide_eq_true_eq] at hab hbc ⊢
        exact le_trans hbc hab)
      (fun a b => by
        simp only [Bool.or_eq_true, decide_eq_true_eq]
        exact Nat.le_total b.date a.date)
      ((s.notifications.getD []).filter
        (storageService.notifMatches userId role))
    rw [storageService.getNotifications]
    exact hp.imp (fun h => by simpa using h)

/-! ### C5: save (upsert) -/

/-- In a collection whose ids are pairwise distinct, two positions
holding the same id are equal. -/
theorem id_index_unique {es : List Equipment}
    (hnd : (es.map Equipment.id).Nodup) (j k : Fin es.length)
    (h : (es.get j).id = (es.get k).id) : j = k := by
  have hj : j.1 < (es.map Equipment.id).length := by
    rw [List.length_map]; exact j.2
  have hk : k.1 < (es.map Equipment.id).length := by
    rw [List.length_map]; exact k.2
  have hjk : (es.map Equipment.id).get ⟨j.1, hj⟩ =
      (es.map Equipment.id).get ⟨k.1, hk⟩ := by
    simpa [List.getElem_map] using h
  have := (List.Nodup.get_inj_iff hnd).mp hjk
  exact Fin.ext (by simpa using congrArg Fin.val this)

/-- C5: on a persisted collection with pairwise-distinct ids, `save`
(upsert) returns the given item and leaves notifications untouched;
when a record with the item's id exists it is replaced in place — the
length and every other position are unchanged — and when no record has
that id the item is appended after the unchanged existing records. -/
theorem save_upsert_spec (s : Store) (es : List Equipment)
    (item : Equipment) (hs : s.equipment = some es)
    (hnd : (es.map Equipment.id).Nodup) :
    (storageService.save item s).1 = item ∧
    (storageService.save item s).2.notifications = s.notifications ∧
    (item.id ∈ es.map Equipment.id →
      ∃ newEs, (storageService.save item s).2.equipment = some newEs ∧
        newEs.length = es.length ∧
        ∃ k : Fin es.length, (es.get k).id = item.id ∧
          newEs[k.1]? = some item ∧
          ∀ j : Fin es.length, j ≠ k → newEs[j.1]? = some (es.get j)) ∧
    (item.id ∉ es.map Equipment.id →
      (storageService.save item s).2.equipment = some (es ++ [item])) := by
  refine ⟨rfl, ?_, ?_, ?_⟩
  · simp [storageService.save, storageService.getAll, hs]
  · intro hmem
    obtain ⟨target, htmem, htid⟩ := List.mem_map.mp hmem
    have hfind : (es.find? (fun i => i.id == item.id)).isSome := by
      rw [List.find?_isSome]
      exact ⟨target, htmem, by simpa using htid⟩
    obtain ⟨found, hfound⟩ := Option.isSome_iff_exists.mp hfind
    refine ⟨es.map (fun i => if i.id == item.id then item else i), ?_, by simp, ?_⟩
    · simp [storageService.save, storageService.getAll, hs, hfound]
    · obtain ⟨k, hk⟩ := List.mem_iff_get.mp htmem
      refine ⟨k, by rw [hk, htid], ?_, ?_⟩
      · rw [List.getElem?_map]
        have : es[k.1]? = some target := by
          rw [← hk]; exact List.getElem?_eq_getElem k.2
        rw [this]
        simp [htid]
      · intro j hj
        have hne : (es.get j).id ≠ item.id := by
          intro heq
          exact hj (id_index_unique hnd j k (by rw [heq, hk, htid]))
        rw [List.getElem?_map, List.getElem?_eq_getElem j.2]
        simp only [Option.map_some']
        rw [if_neg (by simpa using hne)]
        rfl
  · intro hmem
    have hfind : es.find? (fun i => i.id == item.id) = none := by
      rw [List.find?_eq_none]
      intro x hx hbeq
      have hx2 : x.id = item.id := by simpa using hbeq
      exact hmem (hx2 ▸ List.mem_map_of_mem Equipment.id hx)
    simp [storageService.save, storageService.getAll, hs, hfind]

/-- Witness for C5: replacement of the seeded record with id `"2"` and
append of a record with the fresh id `"9"`. -/
theorem save_upsert_spec_witness :
    ((storageService.save itemEmptyReporter seededStore).1 =
        itemEmptyReporter ∧
      (storageService.save itemEmptyReporter seededStore).2.notifications =
        seededStore.notifications ∧
      (itemEmptyReporter.id ∈ INITIAL_DATA.map Equipment.id →
        ∃ newEs,
          (storageService.save itemEmptyReporter seededStore).2.equipment =
            some newEs ∧
          newEs.length = INITIAL_DATA.length ∧
          ∃ k : Fin INITIAL_DATA.length,
            (INITIAL_DATA.get k).id = itemEmptyReporter.id ∧
            newEs[k.1]? = some itemEmptyReporter ∧
            ∀ j : Fin INITIAL_DATA.length, j ≠ k →
              newEs[j.1]? = some (INITIAL_DATA.get j)) ∧
      (itemEmptyReporter.id ∉ INITIAL_DATA.map Equipment.id →
        (storageService.save itemEmptyReporter seededStore).2.equipment =
          some (INITIAL_DATA ++ [itemEmptyReporter]))) := by
  exact save_upsert_spec seededStore INITIAL_DATA itemEmptyReporter rfl
    (by decide)

/-! ### C7: markAllRead frame -/

/-- C7: on a persisted notification collection, `markAllRead` leaves
the equipment key untouched and rewrites the notification list
positionally: every notification that `getNotifications` would return
for the same user and role gets `read := true` (all other fields kept),
and every other notification is left completely unchanged. -/
theorem markAllRead_spec (userId : String) (role : UserRole) (s : Store)
    (ns : List AppNotification) (hs : s.notifications = some ns) :
    (storageService.markAllRead userId role s).equipment = s.equipment ∧
    ∃ ns',
      (storageService.markAllRead userId role s).notifications = some ns' ∧
      ns'.length = ns.length ∧
      ∀ k : Fin ns.length,
        (ns.get k ∈ storageService.getNotifications userId role s →
          ns'[k.1]? = some { ns.get k with read := true }) ∧
        (ns.get k ∉ storageService.getNotifications userId role s →
          ns'[k.1]? = some (ns.get k)) := by
  have hmem : ∀ n ∈ ns,
      (n ∈ storageService.getNotifications userId role s ↔
        storageService.notifMatches userId role n = true) := by
    intro n hn
    rw [storageService.getNotifications, List.mem_mergeSort, List.mem_filter]
    simp [hs, hn]
  refine ⟨by simp [storageService.markAllRead, hs],
    ns.map (fun n =>
      if storageService.notifMatches userId role n then { n with read := true }
      else n),
    by simp [storageService.markAllRead, hs], by simp, ?_⟩
  intro k
  have hin : ns.get k ∈ ns := List.get_mem ns k.1 k.2
  constructor
  · intro h
    have hm : storageService.notifMatches userId role (ns.get k) = true :=
      (hmem _ hin).mp h
    rw [List.getElem?_map, List.getElem?_eq_getElem k.2]
    simp only [Option.map_some']
    rw [if_pos (by simpa using hm)]
    rfl
  · intro h
    have hm : ¬ storageService.notifMatches userId role (ns.get k) = true :=
      fun hb => h ((hmem _ hin).mpr hb)
    rw [List.getElem?_map, List.getElem?_eq_getElem k.2]
    simp only [Option.map_some']
    rw [if_neg (by simpa using hm)]
    rfl

/-- Witness for C7 at a concrete two-notification store: one admin
broadcast and one unrelated user-targeted notification. -/
theorem markAllRead_spec_witness :
    (storageService.markAllRead "user-1" UserRole.admin
        sampleNotifStore).equipment = sampleNotifStore.equipment ∧
    ∃ ns',
      (storageService.markAllRead "user-1" UserRole.admin
          sampleNotifStore).notifications = some ns' ∧
      ns'.length = [notifAdminBroadcast, notifForOtherUser].length ∧
      ∀ k : Fin ([notifAdminBroadcast, notifForOtherUser] :
          List AppNotification).length,
        (([notifAdminBroadcast, notifForOtherUser] :
            List AppNotification).get k ∈
            storageService.getNotifications "user-1" UserRole.admin
              sampleNotifStore →
          ns'[k.1]? =
            some { ([notifAdminBroadcast, notifForOtherUser] :
                List AppNotification).get k with read := true }) ∧
        (([notifAdminBroadcast, notifForOtherUser] :
            List AppNotification).get k ∉
            storageService.getNotifications "user-1" UserRole.admin
              sampleNotifStore →
          ns'[k.1]? =
            some (([notifAdminBroadcast, notifForOtherUser] :
                List AppNotification).get k)) := by
  exact markAllRead_spec "user-1" UserRole.admin sampleNotifStore
    [notifAdminBroadcast, notifForOtherUser] rfl

/-! ### C1: addLog (report issue) -/

/-- C1: on a persisted collection, reporting an issue on a present id
yields an item whose status is `maintenance` and whose log sequence is
the old one with the given log appended last (so exactly one longer);
that item replaces the stored record with this id, and exactly one new
notification is created — prepended to the stored list — addressed to
the `admin` role and unread. -/
theorem addLog_report_spec (s : Store) (es : List Equipment) (id : String)
    (log : MaintenanceLog) (freshId : String) (now : Nat)
    (item : Equipment) (hs : s.equipment = some es)
    (hfind : es.find? (fun i => i.id == id) = some item) :
    ∃ item1,
      (storageService.addLog id log freshId now s).1 = some item1 ∧
      item1.status = EquipmentStatus.maintenance ∧
      item1.logs = item.logs ++ [log] ∧
      item1.logs.length = item.logs.length + 1 ∧
      item1.logs.getLast? = some log ∧
      (storageService.addLog id log freshId now s).2.equipment =
        some (es.map (fun i => if i.id == id then item1 else i)) ∧
      ∃ newN,
        (storageService.addLog id log freshId now s).2.notifications =
          some (newN :: s.notifications.getD []) ∧
        newN.recipientRole = some UserRole.admin ∧
        newN.read = false := by
  have hid : item.id = id := by simpa using List.find?_some hfind
  have hfind2 : es.find? (fun i => i.id == item.id) = some item := by
    rw [hid]; exact hfind
  refine ⟨{ item with logs := item.logs ++ [log], status := .maintenance },
    ?_, rfl, rfl, by simp, List.getLast?_concat _, ?_,
    ⟨{ id := freshId, date := now, read := false,
       message := log.reportedBy ++ " reportou um problema em: " ++ item.name,
       type := .alert, recipientRole := some .admin, recipientUserId := none,
       relatedEquipmentId := some item.id }, ?_, rfl, rfl⟩⟩
  · simp [storageService.addLog, storageService.getAll, hs, hfind]
  · simp [storageService.addLog, storageService.getAll, storageService.save,
      storageService.createNotification, hs, hfind, hfind2, hid]
  · simp [storageService.addLog, storageService.getAll, storageService.save,
      storageService.createNotification, hs, hfind, hfind2]

/-- Witness for C1: reporting an issue on the one-record store. -/
theorem addLog_report_spec_witness :
    ∃ item1,
      (storageService.addLog "x" sampleLog "n1" 5 storeX).1 = some item1 ∧
      item1.status = EquipmentStatus.maintenance ∧
      item1.logs = itemEmptyReporter.logs ++ [sampleLog] ∧
      item1.logs.length = itemEmptyReporter.logs.length + 1 ∧
      item1.logs.getLast? = some sampleLog ∧
      (storageService.addLog "x" sampleLog "n1" 5 storeX).2.equipment =
        some ([itemEmptyReporter].map
          (fun i => if i.id == "x" then item1 else i)) ∧
      ∃ newN,
        (storageService.addLog "x" sampleLog "n1" 5 storeX).2.notifications =
          some (newN :: storeX.notifications.getD []) ∧
        newN.recipientRole = some UserRole.admin ∧
        newN.read = false := by
  exact addLog_report_spec storeX [itemEmptyReporter] "x" sampleLog "n1" 5
    itemEmptyReporter rfl (by decide)

/-! ### C2: resolveMaintenance (resolve) -/

/-- Counterexample for C2 as stated: the store persists one record
(id `"x"`) with a non-empty log sequence, yet `resolveMaintenance`
creates no notification at all, because the last log's reporter id is
the empty string and the source guards the notification with JavaScript
truthiness (`if (reportedById)`), which is false for `""`. -/
theorem resolve_empty_reporter_no_notification :
    itemEmptyReporter.logs ≠ [] ∧
    [itemEmptyReporter].find? (fun i => i.id == "x") =
      some itemEmptyReporter ∧
    (storageService.resolveMaintenance "x" "n1" "T1" 5
        storeX).2.notifications = some [] := by
  refine ⟨by decide, by decide, by decide⟩

/-- C2 (amended): like the claim, but restricted to items whose last
log has a non-empty reporter id: resolving a present id whose item has
a non-empty log sequence sets the status to `available`, stamps the
last log's resolution timestamp with the current instant, keeps all
earlier logs, and creates exactly one new unread `success` notification
whose recipient user id is that last log's reporter id. -/
theorem resolve_spec (s : Store) (es : List Equipment)
    (id freshId nowIso : String) (now : Nat) (item : Equipment)
    (lastLog : MaintenanceLog) (hs : s.equipment = some es)
    (hfind : es.find? (fun i => i.id == id) = some item)
    (hlast : item.logs.getLast? = some lastLog)
    (hrep : lastLog.reportedById ≠ "") :
    ∃ item1,
      (storageService.resolveMaintenance id freshId nowIso now s).1 =
        some item1 ∧
      item1.status = EquipmentStatus.available ∧
      item1.logs = item.logs.dropLast ++
        [{ lastLog with resolvedAt := some nowIso }] ∧
      item1.logs.getLast? = some { lastLog with resolvedAt := some nowIso } ∧
      (storageService.resolveMaintenance id freshId nowIso now s).2.equipment =
        some (es.map (fun i => if i.id == id then item1 else i)) ∧
      ∃ newN,
        (storageService.resolveMaintenance id freshId nowIso
            now s).2.notifications =
          some (newN :: s.notifications.getD []) ∧
        newN.recipientUserId = some lastLog.reportedById ∧
        newN.type = NotificationType.success ∧
        newN.read = false := by
  have hid : item.id = id := by simpa using List.find?_some hfind
  have hfind2 : es.find? (fun i => i.id == item.id) = some item := by
    rw [hid]; exact hfind
  refine ⟨{ item with
        status := .available
        logs := item.logs.dropLast ++
          [{ lastLog with resolvedAt := some nowIso }] },
    ?_, rfl, rfl, List.getLast?_concat _, ?_,
    ⟨{ id := freshId, date := now, read := false,
       message := "O equipamento " ++ item.name ++
         " foi reparado e está disponível.",
       type := .success, recipientRole := none,
       recipientUserId := some lastLog.reportedById,
       relatedEquipmentId := some item.id }, ?_, rfl, rfl, rfl⟩⟩
  · simp [storageService.resolveMaintenance, storageService.getAll, hs,
      hfind, hlast]
  · simp [storageService.resolveMaintenance, storageService.getAll,
      storageService.save, storageService.createNotification, hs, hfind,
      hfind2, hlast, hid]
    split <;> rfl
  · simp [storageService.resolveMaintenance, storageService.getAll,
      storageService.save, storageService.createNotification, hs, hfind,
      hfind2, hlast, hrep]

/-- Witness for C2 (amended): resolving the one-record store whose log
was reported by `"user-1"`. -/
theorem resolve_spec_witness :
    ∃ item1,
      (storageService.resolveMaintenance "y" "n1" "T1" 5 storeY).1 =
        some item1 ∧
      item1.status = EquipmentStatus.available ∧
      item1.logs = itemResolvedLog.logs.dropLast ++
        [{ resolvedLog with resolvedAt := some "T1" }] ∧
      item1.logs.getLast? = some { resolvedLog with resolvedAt := some "T1" } ∧
      (storageService.resolveMaintenance "y" "n1" "T1" 5 storeY).2.equipment =
        some ([itemResolvedLog].map
          (fun i => if i.id == "y" then item1 else i)) ∧
      ∃ newN,
        (storageService.resolveMaintenance "y" "n1" "T1"
            5 storeY).2.notifications =
          some (newN :: storeY.notifications.getD []) ∧
        newN.recipientUserId = some resolvedLog.reportedById ∧
        newN.type = NotificationType.success ∧
        newN.read = false := by
  exact resolve_spec storeY [itemResolvedLog] "y" "n1" "T1" 5
    itemResolvedLog resolvedLog rfl (by decide) (by decide) (by decide)

/-! ### C10: resolution timestamps -/

/-- Counterexample for C10 as stated: the stored log already carries
the resolution timestamp `"T0"`, yet a subsequent `resolveMaintenance`
on the same item overwrites it with the new instant `"T1"` — the code
re-stamps the last log unconditionally. -/
theorem resolve_restamps_resolved_log :
    itemResolvedLog.logs.map MaintenanceLog.resolvedAt = [some "T0"] ∧
    ((storageService.resolveMaintenance "y" "n1" "T1" 5
        storeY).2.equipment.getD []).map
      (fun i => i.logs.map MaintenanceLog.resolvedAt) = [[some "T1"]] := by
  refine ⟨by decide, by decide⟩

/-- C10 (amended): `resolveMaintenance` modifies only the last log of
the targeted item: every log before the last is kept byte-identical
(its resolution timestamp included), while the last log's resolution
timestamp is overwritten with the current instant on every call, even
when it was already set. -/
theorem resolve_only_last_log_restamped (s : Store) (es : List Equipment)
    (id freshId nowIso : String) (now : Nat) (item : Equipment)
    (hs : s.equipment = some es)
    (hfind : es.find? (fun i => i.id == id) = some item) :
    ∃ item1,
      (storageService.resolveMaintenance id freshId nowIso now s).1 =
        some item1 ∧
      item1.logs.length = item.logs.length ∧
      (∀ k : Nat, k + 1 < item.logs.length →
        item1.logs[k]? = item.logs[k]?) ∧
      (∀ lastLog, item.logs.getLast? = some lastLog →
        item1.logs.getLast? =
          some { lastLog with resolvedAt := some nowIso }) ∧
      (storageService.resolveMaintenance id freshId nowIso now s).2.equipment =
        some (es.map (fun i => if i.id == id then item1 else i)) := by
  have hid : item.id = id := by simpa using List.find?_some hfind
  have hfind2 : es.find? (fun i => i.id == item.id) = some item := by
    rw [hid]; exact hfind
  cases hlast : item.logs.getLast? with
  | none =>
      have hnil : item.logs = [] := by simpa using hlast
      refine ⟨{ item with status := .available }, ?_, rfl, ?_, ?_, ?_⟩
      · simp [storageService.resolveMaintenance, storageService.getAll,
          hs, hfind, hlast]
      · intro k hk
        rfl
      · intro lastLog h
        cases h
      · simp [storageService.resolveMaintenance, storageService.getAll,
          storageService.save, storageService.createNotification, hs,
          hfind, hfind2, hlast, hid]
  | some lastLog =>
      have hne : item.logs ≠ [] := by
        intro h
        rw [h] at hlast
        cases hlast
      have hpos : 0 < item.logs.length := List.length_pos.mpr hne
      refine ⟨{ item with
            status := .available
            logs := item.logs.dropLast ++
              [{ lastLog with resolvedAt := some nowIso }] },
        ?_, ?_, ?_, ?_, ?_⟩
      · simp [storageService.resolveMaintenance, storageService.getAll,
          hs, hfind, hlast]
      · simp only [List.length_append, List.length_dropLast,
          List.length_singleton]
        omega
      · intro k hk
        show (item.logs.dropLast ++ _)[k]? = item.logs[k]?
        rw [List.getElem?_append, List.dropLast_eq_take, List.getElem?_take]
        have hk1 : k < item.logs.length - 1 := by omega
        simp [hk1, List.length_dropLast]
      · intro l2 h2
        injection h2 with h2
        subst h2
        exact List.getLast?_concat _
      · simp [storageService.resolveMaintenance, storageService.getAll,
          storageService.save, storageService.createNotification, hs,
          hfind, hfind2, hlast, hid]
        split <;> rfl

/-- Witness for C10 (amended) at the already-resolved one-record store. -/
theorem resolve_only_last_log_restamped_witness :
    ∃ item1,
      (storageService.resolveMaintenance "y" "n1" "T1" 5 storeY).1 =
        some item1 ∧
      item1.logs.length = itemResolvedLog.logs.length ∧
      (∀ k : Nat, k + 1 < itemResolvedLog.logs.length →
        item1.logs[k]? = itemResolvedLog.logs[k]?) ∧
      (∀ lastLog, itemResolvedLog.logs.getLast? = some lastLog →
        item1.logs.getLast? =
          some { lastLog with resolvedAt := some "T1" }) ∧
      (storageService.resolveMaintenance "y" "n1" "T1" 5 storeY).2.equipment =
        some ([itemResolvedLog].map
          (fun i => if i.id == "y" then item1 else i)) := by
  exact resolve_only_last_log_restamped storeY [itemResolvedLog] "y" "n1"
    "T1" 5 itemResolvedLog rfl (by decide)

/-! ### C3: the status/log invariant -/

/-- Counterexample for C3 as stated: `setStatus` (toggleStatus) is one
of the facade operations the claim quantifies over, and applying it
with status `available` to the seeded store — whose item `"3"` has an
unresolved most-recent log — yields a reachable persisted state that
violates the invariant. -/
theorem setStatus_breaks_invariant :
    ¬ statusInvariant
      ((storageService.toggleStatus "3" EquipmentStatus.available
          seededStore).2.equipment.getD []) := by
  decide

/-- The seed data satisfies the status/log invariant. -/
theorem statusInvariant_seed : statusInvariant INITIAL_DATA := by decide

/-- The invariant survives dropping records. -/
theorem statusInvariant_filter (p : Equipment → Bool)
    {es : List Equipment} (h : statusInvariant es) :
    statusInvariant (es.filter p) :=
  fun item hitem => h item (List.mem_of_mem_filter hitem)

/-- The invariant survives replacing some records by one consistent
record. -/
theorem statusInvariant_replace {es : List Equipment} {item1 : Equipment}
    (p : Equipment → Bool) (h : statusInvariant es)
    (h1 : lastLogConsistent item1 = true) :
    statusInvariant (es.map (fun i => if p i then item1 else i)) := by
  intro x hx
  obtain ⟨a, ha, hax⟩ := List.mem_map.mp hx
  by_cases hp : p a
  · rw [if_pos hp] at hax
    exact hax ▸ h1
  · rw [if_neg hp] at hax
    exact hax ▸ h a ha

/-- C3 (amended): every state reachable from the seeded store by
`delete`, `addLog` with an unresolved log, and `resolveMaintenance` has
a persisted equipment collection in which every item whose most recent
log is unresolved has status `maintenance` and every item whose most
recent log is resolved has status `available`.  (The claim's other
operations `setStatus` and `upsert` do not preserve the invariant; see
the counterexample.) -/
theorem reachable_status_invariant (s : Store) (h : ReachableMaint s) :
    ∃ es, s.equipment = some es ∧ statusInvariant es := by
  induction h with
  | seed => exact ⟨INITIAL_DATA, rfl, statusInvariant_seed⟩
  | del id hr ih =>
      obtain ⟨es, hes, hinv⟩ := ih
      exact ⟨es.filter (fun i => i.id != id),
        by simp [storageService.delete, storageService.getAll, hes],
        statusInvariant_filter _ hinv⟩
  | report id log freshId now hr hlog ih =>
      obtain ⟨es, hes, hinv⟩ := ih
      cases hfind : es.find? (fun i => i.id == id) with
      | none =>
          refine ⟨es, ?_, hinv⟩
          simp [storageService.addLog, storageService.getAll, hes, hfind]
      | some item =>
          have hid : item.id = id := by simpa using List.find?_some hfind
          have hfind2 : es.find? (fun i => i.id == item.id) = some item := by
            rw [hid]; exact hfind
          have h1 : lastLogConsistent
              { item with
                logs := item.logs ++ [log]
                status := EquipmentStatus.maintenance } = true := by
            simp [lastLogConsistent, List.getLast?_concat, hlog]
          refine ⟨List.map (fun i =>
              if i.id == item.id then
                { item with
                  logs := item.logs ++ [log]
                  status := EquipmentStatus.maintenance }
              else i) es, ?_, statusInvariant_replace _ hinv h1⟩
          simp [storageService.addLog, storageService.getAll,
            storageService.save, storageService.createNotification, hes,
            hfind, hfind2]
  | resolveOp id freshId nowIso now hr ih =>
      obtain ⟨es, hes, hinv⟩ := ih
      cases hfind : es.find? (fun i => i.id == id) with
      | none =>
          refine ⟨es, ?_, hinv⟩
          simp [storageService.resolveMaintenance, storageService.getAll,
            hes, hfind]
      | some item =>
          have hid : item.id = id := by simpa using List.find?_some hfind
          have hfind2 : es.find? (fun i => i.id == item.id) = some item := by
            rw [hid]; exact hfind
          cases hlast : item.logs.getLast? with
          | none =>
              have h1 : lastLogConsistent
                  { item with status := EquipmentStatus.available } = true := by
                simp [lastLogConsistent, hlast]
              refine ⟨List.map (fun i =>
                  if i.id == item.id then
                    { item with status := EquipmentStatus.available }
                  else i) es, ?_, statusInvariant_replace _ hinv h1⟩
              simp [storageService.resolveMaintenance, storageService.getAll,
                storageService.save, storageService.createNotification,
                hes, hfind, hfind2, hlast]
          | some lastLog =>
              have h1 : lastLogConsistent
                  { item with
                    status := EquipmentStatus.available
                    logs := item.logs.dropLast ++
                      [{ lastLog with resolvedAt := some nowIso }] } = true := by
                simp [lastLogConsistent, List.getLast?_concat]
              refine ⟨List.map (fun i =>
                  if i.id == item.id then
                    { item with
                      status := EquipmentStatus.available
                      logs := item.logs.dropLast ++
                        [{ lastLog with resolvedAt := some nowIso }] }
                  else i) es, ?_, statusInvariant_replace _ hinv h1⟩
              simp [storageService.resolveMaintenance, storageService.getAll,
                storageService.save, storageService.createNotification,
                hes, hfind, hfind2, hlast]
              split <;> rfl

/-- Witness for C3 (amended) at the seeded store itself. -/
theorem reachable_status_invariant_witness :
    ∃ es, seededStore.equipment = some es ∧ statusInvariant es := by
  exact reachable_status_invariant seededStore ReachableMaint.seed

end GerenciamentoSom
